import Mathlib

/-
Shallow embedding of the yt-video-note repository (src/main.py,
src/video_screenshot.py, src/transcriber.py, src/agents/video_summit_note.py,
src/agents/video_screenshot_time_picker.py) together with theorems settling
the specification claims about it.

Modelling conventions:
* Binary file content is opaque to the program, so it is modelled as `String`.
* Python floats (timestamps) are never subjected to arithmetic by this code:
  they are only used as dict keys and formatted into strings.  A float is
  therefore represented by its canonical repr string (`Timestamp := String`);
  two floats are equal exactly when their reprs are equal, so this is a
  faithful representation for the operations the code performs.
* External collaborators (yt-dlp, ffmpeg, whisper, the LLM agents) are
  modelled as oracle functions supplied in an environment record; the code
  under verification is everything the repository itself executes around them.
-/

namespace YtVideoNote

/-- Opaque binary content (bytes objects in the Python source). -/
abbrev Bytes := String

/-- A Python float represented by its canonical repr string; the pipeline only
formats timestamps into strings and compares them as dict keys. -/
abbrev Timestamp := String

/-- A Python dict key as used for the `images` mapping in `main.py`: the
checkpoint-reload branch uses the filename stem, a `str`, while the fresh
extraction branch uses the selected `float` timestamp.  Python dict keys of
type `str` and `float` are distinct, which the two constructors mirror. -/
inductive PyKey where
  | ofStem (s : String)
  | ofTime (t : Timestamp)
deriving DecidableEq

/-- Truth value of the Python test `isinstance(key, float)` on a dict key. -/
def PyKey.isFloatKey : PyKey → Bool
  | .ofStem _ => false
  | .ofTime _ => true

/-- Rendering of a dict key by a Python f-string (`str` renders as itself, a
float renders as its repr). -/
def PyKey.render : PyKey → String
  | .ofStem s => s
  | .ofTime t => t

/-- Index of the last occurrence of a dot in a character list (Python
`name.rfind(chr(46))`), or `none` when there is no dot. -/
def rfindDot : List Char → Option Nat
  | [] => none
  | c :: cs =>
    match rfindDot cs with
    | some i => some (i + 1)
    | none => if c = '.' then some 0 else none

/-- Python `pathlib.PurePath.suffix` for a plain file name: the substring from
the last dot on, provided that dot is neither the first nor the last
character; otherwise the empty string. -/
def pySuffix (name : String) : String :=
  match rfindDot name.data with
  | some i => if 0 < i ∧ i + 1 < name.data.length then ⟨name.data.drop i⟩ else ""
  | none => ""

/-- Python `pathlib.PurePath.stem` for a plain file name: the file name with
`pySuffix` removed. -/
def pyStem (name : String) : String :=
  match rfindDot name.data with
  | some i => if 0 < i ∧ i + 1 < name.data.length then ⟨name.data.take i⟩ else name
  | none => name

/-- Python `str.lower()` as applied to file suffixes by `main` (character by
character lowercasing; the suffixes at issue are ASCII). -/
def pyLower (s : String) : String :=
  ⟨s.data.map Char.toLower⟩

/-- Python dict assignment `d[k] = v` on an insertion-ordered association
list: replace in place when the key is present, append otherwise. -/
def dictInsert {K V : Type} [DecidableEq K] (d : List (K × V)) (k : K) (v : V) :
    List (K × V) :=
  if ∃ p ∈ d, p.1 = k then d.map (fun p => if p.1 = k then (k, v) else p)
  else d ++ [(k, v)]

/-- One content block of a chat message: either a text block or an image
attachment block (the source wraps the raw JPEG bytes into a base64 data URL;
the payload recorded here is those bytes). -/
inductive MsgPart where
  | text (content : String)
  | imageUrl (payload : Bytes)
deriving DecidableEq

/-- A `HumanMessage` sent to an LLM agent: a list of content blocks. -/
abbrev Msg := List MsgPart

/-- Test whether a content block is an image attachment block. -/
def MsgPart.isImage : MsgPart → Bool
  | .imageUrl _ => true
  | .text _ => false

/-- Test whether a message carries an image attachment block. -/
def isImageMsg (m : Msg) : Bool :=
  m.any MsgPart.isImage

/-- Number of image-carrying messages in a generation request. -/
def countImageMessages (ms : List Msg) : Nat :=
  (ms.filter isImageMsg).length

/-- The per-image message built by `VideoSummitNote.enhance_summarize`:
a text block tagging the timestamp and conventional file path, plus the image
attachment block. -/
def imageMessage (k : PyKey) (v : Bytes) : Msg :=
  [ MsgPart.text ("Timestamp: " ++ k.render ++ "s, FilePath: `./screenshots/" ++ k.render ++ ".jpg`"),
    MsgPart.imageUrl v ]

/-- The closing instruction message of `enhance_summarize` (the triple-quoted
literal in the source, whitespace included). -/
def enhanceInstruction : String :=
  "Please reasonably integrate these images into the summary \n                    I provided using Markdown syntax, with my content as the primary basis.\n                    Do not use `Front Matter` format.\n                    "

/-- The full message list `enhance_summarize` sends to the enhancement agent:
the existing summary block, one message per image (in dict iteration order),
then the closing instruction.  The transcript argument of the Python method is
unused by its body. -/
def enhance_messages (exists_summary : String) (images : List (PyKey × Bytes)) :
    List Msg :=
  [[MsgPart.text ("\nExisting Summary:\n```\n" ++ exists_summary ++ "\n```\n")]]
    ++ images.map (fun p => imageMessage p.1 p.2)
    ++ [[MsgPart.text enhanceInstruction]]

/-- The RunWorkspace directory `./results/{id}/` as seen by `main`: each field
is `some content` when the corresponding checkpoint file exists.  The
`screenshots` field is `some entries` when the `screenshots/` directory
exists, with `entries` listing its (file name, content) pairs in directory
iteration order (all entries are regular files). -/
structure FS where
  video : Option Bytes
  transcription : Option String
  summaryRaw : Option String
  screenshots : Option (List (String × Bytes))
  summary : Option String
deriving DecidableEq

/-- External collaborators of one pipeline run, fixed url and video_info:
yt-dlp download content, the transcriber, the two LLM agents of
`VideoSummitNote` and `VideoScreenshotTimePicker`, and ffmpeg frame grabs. -/
structure Oracles where
  download : Bytes
  transcribe : Bytes → String
  summarize : String → String
  selectTimes : String → String → List Timestamp
  getImage : Bytes → Timestamp → Bytes
  enhanceInvoke : List Msg → String

/-- One iteration of the screenshot-reload loop in `main`: a directory entry
whose lowercased suffix is `.jpg` is stored in the `images` dict keyed by the
file name stem (a `str`); any other entry is ignored. -/
def loadStep (acc : List (PyKey × Bytes)) (f : String × Bytes) : List (PyKey × Bytes) :=
  if pyLower (pySuffix f.1) = ".jpg" then
    dictInsert acc (PyKey.ofStem (pyStem f.1)) f.2
  else acc

/-- Loading of the pre-existing screenshot set in `main`: iterate over the
directory entries applying `loadStep` to an initially empty dict. -/
def loadImages (files : List (String × Bytes)) : List (PyKey × Bytes) :=
  files.foldl loadStep []

/-- The method `VideoSummitNote.enhance_summarize`: build the message list and
invoke the enhancement agent.  The `transcribe_with_timestamp` parameter is
accepted but unused by the source method body. -/
def VideoSummitNote.enhance_summarize (o : Oracles) (exists_summary : String)
    (transcribe_with_timestamp : String) (images : List (PyKey × Bytes)) : String :=
  o.enhanceInvoke (enhance_messages exists_summary images)

/-- Result of one execution of `main` (stages 2 to 7, after `extract_info`
resolved the metadata): the final workspace, which stages actually executed,
and the intermediate values fed downstream. -/
structure RunResult where
  fs : FS
  downloaded : Bool
  transcribed : Bool
  summarizedRaw : Bool
  selectCalled : Bool
  extractions : Nat
  videoUsed : Bytes
  transcriptUsed : String
  rawUsed : String
  imagesPassed : List (PyKey × Bytes)
  enhanceRequest : List Msg
  finalSummary : String

/-- Body of the screenshot extraction loop in `main`: for each selected
timestamp, extract a frame, store it in the `images` dict keyed by the float
timestamp, and write it to `screenshots/{timestamp}.jpg` (overwriting any
earlier write to the same name within the loop). -/
def screenshotLoop (o : Oracles) (videoBytes : Bytes) (times : List Timestamp) :
    List (PyKey × Bytes) × List (String × Bytes) :=
  times.foldl
    (fun acc t =>
      let img := o.getImage videoBytes t
      (dictInsert acc.1 (PyKey.ofTime t) img, dictInsert acc.2 (t ++ ".jpg") img))
    ([], [])

/-- The orchestration in `main` from the download stage on.  Stage 2 skips
when `video.mp4` exists; stage 3 skips and reloads when `transcription.txt`
exists; stage 4 skips and reloads when `summary-raw.md` exists; the combined
stage 5+6 skips highlight selection and loads the image set from disk when
the `screenshots/` directory exists, and otherwise selects timestamps and
runs the extraction loop (the directory is created inside the loop, so it
comes into existence only when at least one timestamp was selected); stage 7
always runs `enhance_summarize` and writes `summary.md`. -/
def runPipeline (o : Oracles) (fs0 : FS) : RunResult :=
  let p1 : FS × Bytes × Bool :=
    match fs0.video with
    | some v => (fs0, v, false)
    | none => ({ fs0 with video := some o.download }, o.download, true)
  let fs1 := p1.1
  let videoBytes := p1.2.1
  let dl := p1.2.2
  let p2 : FS × String × Bool :=
    match fs1.transcription with
    | some t => (fs1, t, false)
    | none =>
      let t := o.transcribe videoBytes
      ({ fs1 with transcription := some t }, t, true)
  let fs2 := p2.1
  let transcribe := p2.2.1
  let tr := p2.2.2
  let p3 : FS × String × Bool :=
    match fs2.summaryRaw with
    | some s => (fs2, s, false)
    | none =>
      let s := o.summarize transcribe
      ({ fs2 with summaryRaw := some s }, s, true)
  let fs3 := p3.1
  let summary_content := p3.2.1
  let sm := p3.2.2
  let p4 : FS × List (PyKey × Bytes) × Bool × Nat :=
    match fs3.screenshots with
    | some files => (fs3, loadImages files, false, 0)
    | none =>
      let times := o.selectTimes summary_content transcribe
      let st := screenshotLoop o videoBytes times
      ({ fs3 with screenshots := if times.isEmpty then none else some st.2 },
       st.1, true, times.length)
  let fs4 := p4.1
  let images := p4.2.1
  let sel := p4.2.2.1
  let nExt := p4.2.2.2
  let request := enhance_messages summary_content images
  let final := VideoSummitNote.enhance_summarize o summary_content transcribe images
  { fs := { fs4 with summary := some final }
    downloaded := dl
    transcribed := tr
    summarizedRaw := sm
    selectCalled := sel
    extractions := nExt
    videoUsed := videoBytes
    transcriptUsed := transcribe
    rawUsed := summary_content
    imagesPassed := images
    enhanceRequest := request
    finalSummary := final }

/-- A coordinate point, the `Position` NamedTuple of `video_screenshot.py`
(Python ints). -/
structure Position where
  x : Int
  y : Int
deriving DecidableEq

/-- Errors raised by the frame extractor, mirroring the Python exception
classes: `fileNotFound` models the `FileExistsError` raised for an absent
media path (the NotFound case of the spec taxonomy), `invalidArg` models
`ValueError`, `runtimeFailure` models the `RuntimeError` wrapping an external
process failure. -/
inductive ExtractErr where
  | fileNotFound (msg : String)
  | invalidArg (msg : String)
  | runtimeFailure (msg : String)
deriving DecidableEq

/-- Test for the `ValueError` (validation) case. -/
def isValidationError (r : Except ExtractErr Bytes) : Bool :=
  match r with
  | .error (.invalidArg _) => true
  | _ => false

/-- The ffmpeg invocation built by `video_screenshot.py`: input path, the
`ss` seek, `vframes`, the optional crop filter, output format, codec and
quality scale. -/
structure FfmpegCmd where
  input : String
  ss : Timestamp
  vframes : Nat
  vf : Option String
  format : String
  vcodec : String
  qscale : Nat
deriving DecidableEq

/-- The file system and the external ffmpeg process as the frame extractor
sees them: `pathExists` is `os.path.exists`, and `runFfmpeg exe cmd` is the
spawned process, returning its stdout on exit code zero and its stderr text
on a non-zero exit code. -/
structure ScreenshotEnv where
  pathExists : String → Bool
  runFfmpeg : String → FfmpegCmd → Except String Bytes

/-- The `VideoScreenshot` class state: the configured ffmpeg executable. -/
structure VideoScreenshot where
  ffmpegPath : String

/-- The `VideoScreenshot.__init__` logic `ffmpeg_path or "ffmpeg"` (a `None`
or empty argument falls back to the default executable name). -/
def VideoScreenshot.init (ffmpeg_path : Option String) : VideoScreenshot :=
  match ffmpeg_path with
  | none => ⟨"ffmpeg"⟩
  | some s => if s = "" then ⟨"ffmpeg"⟩ else ⟨s⟩

/-- The helper `VideoScreenshot._run_ffmpeg_command`: run the process and
wrap a non-zero exit into a `RuntimeError` carrying the description and the
captured stderr. -/
def VideoScreenshot.run_ffmpeg_command (env : ScreenshotEnv) (self : VideoScreenshot)
    (stream : FfmpegCmd) (desc : String) : Except ExtractErr Bytes :=
  match env.runFfmpeg self.ffmpegPath stream with
  | .ok out => .ok out
  | .error stderr => .error (.runtimeFailure ("FFmpeg error for " ++ desc ++ ": " ++ stderr))

/-- The method `VideoScreenshot.get_image`: check the media path exists, then
grab one mjpeg frame at the timestamp via ffmpeg. -/
def VideoScreenshot.get_image (env : ScreenshotEnv) (self : VideoScreenshot)
    (video_path : String) (timestamp : Timestamp) : Except ExtractErr Bytes :=
  if env.pathExists video_path = false then
    .error (.fileNotFound ("Video file not found: " ++ video_path))
  else
    VideoScreenshot.run_ffmpeg_command env self
      ⟨video_path, timestamp, 1, none, "image2", "mjpeg", 5⟩
      ("get_image from " ++ video_path ++ " at " ++ timestamp ++ "s")

/-- The method `VideoScreenshot.get_cropped_image`: check the media path
exists, check the crop region coordinates, then grab one cropped frame.  The
region is never compared with the actual frame bounds. -/
def VideoScreenshot.get_cropped_image (env : ScreenshotEnv) (self : VideoScreenshot)
    (video_path : String) (top_left : Position) (bottom_right : Position)
    (timestamp : Timestamp) : Except ExtractErr Bytes :=
  if env.pathExists video_path = false then
    .error (.fileNotFound ("Video file not found: " ++ video_path))
  else if ¬(top_left.x < bottom_right.x ∧ top_left.y < bottom_right.y) then
    .error (.invalidArg "Invalid crop coordinates: top_left must be strictly to the top-left of bottom_right.")
  else
    let width := bottom_right.x - top_left.x
    let height := bottom_right.y - top_left.y
    let x := top_left.x
    let y := top_left.y
    VideoScreenshot.run_ffmpeg_command env self
      ⟨video_path, timestamp, 1,
        some ("crop=" ++ toString width ++ ":" ++ toString height ++ ":" ++ toString x ++ ":" ++ toString y),
        "image2", "mjpeg", 2⟩
      ("get_cropped_image from " ++ video_path ++ " at " ++ timestamp ++ "s (crop "
        ++ toString x ++ "," ++ toString y ++ "," ++ toString width ++ "," ++ toString height ++ ")")

/-- The result-collecting loop of `get_multi_image`: extract each timestamp
in input order with `get_image`, appending to the results, aborting the whole
batch on the first failure. -/
def VideoScreenshot.multi_image_loop (env : ScreenshotEnv) (self : VideoScreenshot)
    (video_path : String) : List Timestamp → Except ExtractErr (List Bytes)
  | [] => .ok []
  | t :: rest =>
    match VideoScreenshot.get_image env self video_path t with
    | .error e => .error e
    | .ok b =>
      match VideoScreenshot.multi_image_loop env self video_path rest with
      | .error e => .error e
      | .ok bs => .ok (b :: bs)

/-- The method `VideoScreenshot.get_multi_image`: check the media path
exists, reject an empty timestamp list, then run the sequential extraction
loop. -/
def VideoScreenshot.get_multi_image (env : ScreenshotEnv) (self : VideoScreenshot)
    (video_path : String) (timestamps : List Timestamp) : Except ExtractErr (List Bytes) :=
  if env.pathExists video_path = false then
    .error (.fileNotFound ("Video file not found: " ++ video_path))
  else if timestamps.isEmpty then
    .error (.invalidArg "Timestamps list cannot be empty")
  else
    VideoScreenshot.multi_image_loop env self video_path timestamps

/-- The result-collecting loop of `get_multi_cropped_image`, over
`get_cropped_image`. -/
def VideoScreenshot.multi_cropped_loop (env : ScreenshotEnv) (self : VideoScreenshot)
    (video_path : String) (top_left : Position) (bottom_right : Position) :
    List Timestamp → Except ExtractErr (List Bytes)
  | [] => .ok []
  | t :: rest =>
    match VideoScreenshot.get_cropped_image env self video_path top_left bottom_right t with
    | .error e => .error e
    | .ok b =>
      match VideoScreenshot.multi_cropped_loop env self video_path top_left bottom_right rest with
      | .error e => .error e
      | .ok bs => .ok (b :: bs)

/-- The method `VideoScreenshot.get_multi_cropped_image`: check the media
path exists, reject an empty timestamp list, check the crop region, then run
the sequential cropped-extraction loop. -/
def VideoScreenshot.get_multi_cropped_image (env : ScreenshotEnv) (self : VideoScreenshot)
    (video_path : String) (top_left : Position) (bottom_right : Position)
    (timestamps : List Timestamp) : Except ExtractErr (List Bytes) :=
  if env.pathExists video_path = false then
    .error (.fileNotFound ("Video file not found: " ++ video_path))
  else if timestamps.isEmpty then
    .error (.invalidArg "Timestamps list cannot be empty")
  else if ¬(top_left.x < bottom_right.x ∧ top_left.y < bottom_right.y) then
    .error (.invalidArg "Invalid crop coordinates: top_left must be strictly to the top-left of bottom_right.")
  else
    VideoScreenshot.multi_cropped_loop env self video_path top_left bottom_right timestamps

/-- A loaded speech-recognition model instance, identified opaquely. -/
structure WhisperModel where
  tag : String
deriving DecidableEq

/-- The environment of the transcription adapter: whether the `whisper`
package can be imported, and the (expensive) model loading call
`whisper.load_model(model_size)`. -/
structure TranscriberEnv where
  whisperAvailable : Bool
  loadModel : String → WhisperModel

/-- The `Transcriber` class state as set up by `__init__`: the configured
ffmpeg executable, the model size, and the lazily loaded model field. -/
structure Transcriber where
  ffmpeg_path : String
  model_size : String
  whisper_model : Option WhisperModel
deriving DecidableEq

/-- The `Transcriber.__init__` logic: `ffmpeg_path or "ffmpeg"`, the given
model size (default `large-v3-turbo` at the call sites that omit it), and
`_whisper_model = None` so the model is lazily loaded when needed. -/
def Transcriber.init (ffmpeg_path : Option String) (model_size : String) : Transcriber :=
  { ffmpeg_path :=
      match ffmpeg_path with
      | none => "ffmpeg"
      | some s => if s = "" then "ffmpeg" else s
    model_size := model_size
    whisper_model := none }

/-- The method `Transcriber._load_whisper_model`: when the cached field is
already populated the call returns at once, otherwise the import is attempted
(raising a dependency error when unavailable) and the loaded model is cached
in the field.  The returned `Nat` counts how many model loads the call
performed (0 or 1). -/
def Transcriber.load_whisper_model (env : TranscriberEnv) (self : Transcriber) :
    Except String (Transcriber × Nat) :=
  match self.whisper_model with
  | some _ => .ok (self, 0)
  | none =>
    if env.whisperAvailable then
      .ok ({ self with whisper_model := some (env.loadModel self.model_size) }, 1)
    else
      .error "The whisper package is not installed. Please install it using: pip install openai-whisper"

/-- A sequence of `n` transcription calls on one `Transcriber` instance, each
of which begins by invoking `_load_whisper_model` (as
`transcribe_with_timestamps` does), threading the instance state and summing
the number of model loads performed. -/
def Transcriber.loadCallSeq (env : TranscriberEnv) (self : Transcriber) :
    Nat → Except String (Transcriber × Nat)
  | 0 => .ok (self, 0)
  | n + 1 =>
    match Transcriber.load_whisper_model env self with
    | .error e => .error e
    | .ok (self1, k) =>
      match Transcriber.loadCallSeq env self1 n with
      | .error e => .error e
      | .ok (self2, k2) => .ok (self2, k + k2)

/-- Concrete oracle fixture used by witnesses and counterexamples: every
external collaborator answers deterministically. -/
def oTest : Oracles :=
  { download := "VID"
    transcribe := fun v => "T(" ++ v ++ ")"
    summarize := fun t => "S(" ++ t ++ ")"
    selectTimes := fun _ _ => ["9.0"]
    getImage := fun v t => "IMG(" ++ v ++ "@" ++ t ++ ")"
    enhanceInvoke := fun ms => "FINAL:" ++ toString (countImageMessages ms) }

/-- Oracle fixture whose highlight selector returns the empty list. -/
def oEmpty : Oracles :=
  { oTest with selectTimes := fun _ _ => [] }

/-- Workspace fixture: fully checkpointed run whose `screenshots/` directory
holds the single file `01.5.jpg`. -/
def fsC1 : FS :=
  ⟨some "VID", some "TR", some "SUM", some [("01.5.jpg", "IMGA")], none⟩

/-- Directory-entries fixture: two screenshots and one unrelated text file. -/
def filesW : List (String × Bytes) :=
  [("1.5.jpg", "A"), ("2.0.jpg", "B"), ("notes.txt", "N")]

/-- Workspace fixture whose `screenshots/` directory holds `filesW`. -/
def fsW : FS :=
  ⟨some "VID", some "TR", some "SUM", some filesW, none⟩

/-- Empty workspace fixture: no checkpoint exists. -/
def fsEmpty : FS :=
  ⟨none, none, none, none, none⟩

/-- Frame-extractor environment fixture: exactly the path `video.mp4`
exists, and every ffmpeg invocation succeeds with a stdout naming the seek
position. -/
def sEnv : ScreenshotEnv :=
  ⟨fun p => p == "video.mp4", fun _ cmd => .ok ("IMG@" ++ cmd.ss)⟩

/-- Frame-extractor instance fixture with the default executable. -/
def vsFix : VideoScreenshot :=
  VideoScreenshot.init none

/-- Transcription environment fixture: whisper importable, loading tags the
model with its size. -/
def tEnv : TranscriberEnv :=
  ⟨true, fun s => ⟨s⟩⟩

theorem isValidationError_run_ffmpeg (env : ScreenshotEnv) (self : VideoScreenshot)
    (stream : FfmpegCmd) (desc : String) :
    isValidationError (VideoScreenshot.run_ffmpeg_command env self stream desc) = false := by
  unfold VideoScreenshot.run_ffmpeg_command
  cases env.runFfmpeg self.ffmpegPath stream <;> rfl

/-- C5: for an existing media path, `get_cropped_image` raises a validation
error exactly when the region fails `top_left.x < bottom_right.x` and
`top_left.y < bottom_right.y`; whether any other error occurs depends only on
the external ffmpeg process, never on a comparison of the region with the
actual frame bounds (the validation outcome is invariant under every process
behavior). -/
theorem C5_region_validation (env : ScreenshotEnv) (self : VideoScreenshot)
    (path : String) (tl br : Position) (t : Timestamp)
    (h : env.pathExists path = true) :
    (isValidationError (VideoScreenshot.get_cropped_image env self path tl br t) = true
      ↔ ¬(tl.x < br.x ∧ tl.y < br.y)) ∧
    (∀ g : String → FfmpegCmd → Except String Bytes,
      isValidationError (VideoScreenshot.get_cropped_image ⟨env.pathExists, g⟩ self path tl br t)
        = isValidationError (VideoScreenshot.get_cropped_image env self path tl br t)) := by
  constructor
  · unfold VideoScreenshot.get_cropped_image
    by_cases hr : tl.x < br.x ∧ tl.y < br.y
    · simp [h, hr, isValidationError_run_ffmpeg]
    · simp [h, hr, isValidationError]
  · intro g
    unfold VideoScreenshot.get_cropped_image
    by_cases hr : tl.x < br.x ∧ tl.y < br.y
    · simp [h, hr, isValidationError_run_ffmpeg]
    · simp [h, hr]

/-- C5 witness: with the fixture environment and the reversed region from the
spec example, the hypothesis holds and the validation error is raised. -/
theorem C5_region_validation_witness :
    sEnv.pathExists "video.mp4" = true ∧
    ((isValidationError (VideoScreenshot.get_cropped_image sEnv vsFix "video.mp4" ⟨400, 300⟩ ⟨100, 50⟩ "0.0") = true
        ↔ ¬((400 : Int) < 100 ∧ (300 : Int) < 50)) ∧
      (∀ g : String → FfmpegCmd → Except String Bytes,
        isValidationError (VideoScreenshot.get_cropped_image ⟨sEnv.pathExists, g⟩ vsFix "video.mp4" ⟨400, 300⟩ ⟨100, 50⟩ "0.0")
          = isValidationError (VideoScreenshot.get_cropped_image sEnv vsFix "video.mp4" ⟨400, 300⟩ ⟨100, 50⟩ "0.0"))) :=
  ⟨by decide, C5_region_validation sEnv vsFix "video.mp4" ⟨400, 300⟩ ⟨100, 50⟩ "0.0" (by decide)⟩

/-- C6: for an existing media path, both batch operations reject an empty
timestamp list with the `ValueError` text of the source, and the outcome is
invariant under every behavior of the external process (no extraction is
attempted). -/
theorem C6_empty_batch_validation (env : ScreenshotEnv) (self : VideoScreenshot)
    (path : String) (tl br : Position)
    (h : env.pathExists path = true) :
    VideoScreenshot.get_multi_image env self path [] =
      .error (.invalidArg "Timestamps list cannot be empty") ∧
    VideoScreenshot.get_multi_cropped_image env self path tl br [] =
      .error (.invalidArg "Timestamps list cannot be empty") ∧
    (∀ g : String → FfmpegCmd → Except String Bytes,
      VideoScreenshot.get_multi_image ⟨env.pathExists, g⟩ self path [] =
        .error (.invalidArg "Timestamps list cannot be empty")) ∧
    (∀ g : String → FfmpegCmd → Except String Bytes,
      VideoScreenshot.get_multi_cropped_image ⟨env.pathExists, g⟩ self path tl br [] =
        .error (.invalidArg "Timestamps list cannot be empty")) := by
  refine ⟨?_, ?_, ?_, ?_⟩ <;>
    simp [VideoScreenshot.get_multi_image, VideoScreenshot.get_multi_cropped_image, h]

/-- C6 witness: the fixture environment with its existing path. -/
theorem C6_empty_batch_validation_witness :
    sEnv.pathExists "video.mp4" = true ∧
    (VideoScreenshot.get_multi_image sEnv vsFix "video.mp4" [] =
        .error (.invalidArg "Timestamps list cannot be empty") ∧
      VideoScreenshot.get_multi_cropped_image sEnv vsFix "video.mp4" ⟨0, 0⟩ ⟨10, 10⟩ [] =
        .error (.invalidArg "Timestamps list cannot be empty") ∧
      (∀ g : String → FfmpegCmd → Except String Bytes,
        VideoScreenshot.get_multi_image ⟨sEnv.pathExists, g⟩ vsFix "video.mp4" [] =
          .error (.invalidArg "Timestamps list cannot be empty")) ∧
      (∀ g : String → FfmpegCmd → Except String Bytes,
        VideoScreenshot.get_multi_cropped_image ⟨sEnv.pathExists, g⟩ vsFix "video.mp4" ⟨0, 0⟩ ⟨10, 10⟩ [] =
          .error (.invalidArg "Timestamps list cannot be empty"))) :=
  ⟨by decide, C6_empty_batch_validation sEnv vsFix "video.mp4" ⟨0, 0⟩ ⟨10, 10⟩ (by decide)⟩

/-- C7: for a media path that does not exist, `get_image` and
`get_cropped_image` fail with the missing-file error of the source (the
NotFound case: Python `FileExistsError`, an I/O error), and they do so for
every behavior of the external process, i.e. before any process invocation
can matter. -/
theorem C7_missing_file (env : ScreenshotEnv) (self : VideoScreenshot)
    (path : String) (tl br : Position) (t : Timestamp)
    (h : env.pathExists path = false) :
    VideoScreenshot.get_image env self path t =
      .error (.fileNotFound ("Video file not found: " ++ path)) ∧
    VideoScreenshot.get_cropped_image env self path tl br t =
      .error (.fileNotFound ("Video file not found: " ++ path)) ∧
    (∀ g : String → FfmpegCmd → Except String Bytes,
      VideoScreenshot.get_image ⟨env.pathExists, g⟩ self path t =
        .error (.fileNotFound ("Video file not found: " ++ path))) ∧
    (∀ g : String → FfmpegCmd → Except String Bytes,
      VideoScreenshot.get_cropped_image ⟨env.pathExists, g⟩ self path tl br t =
        .error (.fileNotFound ("Video file not found: " ++ path))) := by
  refine ⟨?_, ?_, ?_, ?_⟩ <;>
    simp [VideoScreenshot.get_image, VideoScreenshot.get_cropped_image, h]

/-- C7 witness: the spec example `extract("missing.mp4", 1.0)` in the fixture
environment. -/
theorem C7_missing_file_witness :
    sEnv.pathExists "missing.mp4" = false ∧
    (VideoScreenshot.get_image sEnv vsFix "missing.mp4" "1.0" =
        .error (.fileNotFound ("Video file not found: " ++ "missing.mp4")) ∧
      VideoScreenshot.get_cropped_image sEnv vsFix "missing.mp4" ⟨0, 0⟩ ⟨10, 10⟩ "1.0" =
        .error (.fileNotFound ("Video file not found: " ++ "missing.mp4")) ∧
      (∀ g : String → FfmpegCmd → Except String Bytes,
        VideoScreenshot.get_image ⟨sEnv.pathExists, g⟩ vsFix "missing.mp4" "1.0" =
          .error (.fileNotFound ("Video file not found: " ++ "missing.mp4"))) ∧
      (∀ g : String → FfmpegCmd → Except String Bytes,
        VideoScreenshot.get_cropped_image ⟨sEnv.pathExists, g⟩ vsFix "missing.mp4" ⟨0, 0⟩ ⟨10, 10⟩ "1.0" =
          .error (.fileNotFound ("Video file not found: " ++ "missing.mp4")))) :=
  ⟨by decide, C7_missing_file sEnv vsFix "missing.mp4" ⟨0, 0⟩ ⟨10, 10⟩ "1.0" (by decide)⟩

/-- C10: the existence check precedes the empty-list check in both batch
operations, so a non-existent media path with an empty timestamp list yields
the missing-file error, not the validation error; and in
`get_multi_cropped_image` the empty-list check precedes the region check, so
an existing path with an empty list and a reversed region yields the
empty-list validation error, not the region one. -/
theorem C10_check_order (env envOk : ScreenshotEnv) (self : VideoScreenshot)
    (path pathOk : String) (tl br tlR brR : Position)
    (h1 : env.pathExists path = false)
    (h2 : envOk.pathExists pathOk = true)
    (h3 : ¬(tlR.x < brR.x ∧ tlR.y < brR.y)) :
    VideoScreenshot.get_multi_image env self path [] =
      .error (.fileNotFound ("Video file not found: " ++ path)) ∧
    VideoScreenshot.get_multi_cropped_image env self path tl br [] =
      .error (.fileNotFound ("Video file not found: " ++ path)) ∧
    VideoScreenshot.get_multi_cropped_image envOk self pathOk tlR brR [] =
      .error (.invalidArg "Timestamps list cannot be empty") := by
  refine ⟨?_, ?_, ?_⟩ <;>
    simp [VideoScreenshot.get_multi_image, VideoScreenshot.get_multi_cropped_image, h1, h2]

/-- C10 witness: missing path with empty list, and existing path with empty
list plus reversed region. -/
theorem C10_check_order_witness :
    sEnv.pathExists "missing.mp4" = false ∧
    sEnv.pathExists "video.mp4" = true ∧
    ¬((400 : Int) < 100 ∧ (300 : Int) < 50) ∧
    (VideoScreenshot.get_multi_image sEnv vsFix "missing.mp4" [] =
        .error (.fileNotFound ("Video file not found: " ++ "missing.mp4")) ∧
      VideoScreenshot.get_multi_cropped_image sEnv vsFix "missing.mp4" ⟨0, 0⟩ ⟨10, 10⟩ [] =
        .error (.fileNotFound ("Video file not found: " ++ "missing.mp4")) ∧
      VideoScreenshot.get_multi_cropped_image sEnv vsFix "video.mp4" ⟨400, 300⟩ ⟨100, 50⟩ [] =
        .error (.invalidArg "Timestamps list cannot be empty")) :=
  ⟨by decide, by decide, by decide,
    C10_check_order sEnv sEnv vsFix "missing.mp4" "video.mp4" ⟨0, 0⟩ ⟨10, 10⟩ ⟨400, 300⟩ ⟨100, 50⟩
      (by decide) (by decide) (by decide)⟩

theorem multi_image_loop_ok (env : ScreenshotEnv) (self : VideoScreenshot)
    (path : String) :
    ∀ (ts : List Timestamp) (bs : List Bytes),
      VideoScreenshot.multi_image_loop env self path ts = .ok bs →
      bs.length = ts.length ∧
      ∀ (i : Nat) (hts : i < ts.length) (hbs : i < bs.length),
        VideoScreenshot.get_image env self path (ts.get ⟨i, hts⟩) = .ok (bs.get ⟨i, hbs⟩) := by
  intro ts
  induction ts with
  | nil =>
    intro bs h
    unfold VideoScreenshot.multi_image_loop at h
    cases h
    exact ⟨rfl, fun i hts _ => absurd hts (Nat.not_lt_zero i)⟩
  | cons t rest ih =>
    intro bs h
    unfold VideoScreenshot.multi_image_loop at h
    cases hg : VideoScreenshot.get_image env self path t with
    | error e => rw [hg] at h; cases h
    | ok b =>
      rw [hg] at h
      cases hr : VideoScreenshot.multi_image_loop env self path rest with
      | error e => rw [hr] at h; cases h
      | ok bs1 =>
        rw [hr] at h
        cases h
        obtain ⟨hlen, hget⟩ := ih bs1 hr
        refine ⟨by simp [hlen], ?_⟩
        intro i hts hbs
        cases i with
        | zero => simpa using hg
        | succ j =>
          have hts1 : j < rest.length := by simpa using hts
          have hbs1 : j < bs1.length := by simpa using hbs
          simpa using hget j hts1 hbs1

theorem multi_image_loop_err (env : ScreenshotEnv) (self : VideoScreenshot)
    (path : String) :
    ∀ (ts : List Timestamp) (e : ExtractErr),
      VideoScreenshot.multi_image_loop env self path ts = .error e →
      ∃ t ∈ ts, VideoScreenshot.get_image env self path t = .error e := by
  intro ts
  induction ts with
  | nil =>
    intro e h
    unfold VideoScreenshot.multi_image_loop at h
    cases h
  | cons t rest ih =>
    intro e h
    unfold VideoScreenshot.multi_image_loop at h
    cases hg : VideoScreenshot.get_image env self path t with
    | error e1 =>
      rw [hg] at h
      cases h
      exact ⟨t, List.mem_cons_self t rest, hg⟩
    | ok b =>
      rw [hg] at h
      cases hr : VideoScreenshot.multi_image_loop env self path rest with
      | error e1 =>
        rw [hr] at h
        cases h
        obtain ⟨t1, ht1, hgt1⟩ := ih e hr
        exact ⟨t1, List.mem_cons_of_mem t ht1, hgt1⟩
      | ok bs1 => rw [hr] at h; cases h

/-- C8: for an existing media path and a non-empty timestamp list,
`get_multi_image` returns, when it succeeds, a list as long as the input
whose i-th element is exactly the single-frame result
`get_image(path, timestamps[i])` (results in input order); when it fails, the
whole batch fails with the error of some failing single-frame extraction and
no partial list is returned. -/
theorem C8_batch_sequential (env : ScreenshotEnv) (self : VideoScreenshot)
    (path : String) (ts : List Timestamp)
    (h : env.pathExists path = true) (hne : ts ≠ []) :
    (∀ bs : List Bytes,
      VideoScreenshot.get_multi_image env self path ts = .ok bs →
      bs.length = ts.length ∧
      ∀ (i : Nat) (hts : i < ts.length) (hbs : i < bs.length),
        VideoScreenshot.get_image env self path (ts.get ⟨i, hts⟩) = .ok (bs.get ⟨i, hbs⟩)) ∧
    (∀ e : ExtractErr,
      VideoScreenshot.get_multi_image env self path ts = .error e →
      ∃ t ∈ ts, VideoScreenshot.get_image env self path t = .error e) := by
  have hmulti : VideoScreenshot.get_multi_image env self path ts =
      VideoScreenshot.multi_image_loop env self path ts := by
    unfold VideoScreenshot.get_multi_image
    simp [h, hne]
  rw [hmulti]
  exact ⟨fun bs hb => multi_image_loop_ok env self path ts bs hb,
    fun e he => multi_image_loop_err env self path ts e he⟩

/-- C8 witness: a two-element batch in the fixture environment; both
hypotheses hold at this input. -/
theorem C8_batch_sequential_witness :
    sEnv.pathExists "video.mp4" = true ∧
    (["1.0", "2.0"] : List Timestamp) ≠ [] ∧
    ((∀ bs : List Bytes,
        VideoScreenshot.get_multi_image sEnv vsFix "video.mp4" ["1.0", "2.0"] = .ok bs →
        bs.length = (["1.0", "2.0"] : List Timestamp).length ∧
        ∀ (i : Nat) (hts : i < (["1.0", "2.0"] : List Timestamp).length) (hbs : i < bs.length),
          VideoScreenshot.get_image sEnv vsFix "video.mp4" ((["1.0", "2.0"] : List Timestamp).get ⟨i, hts⟩)
            = .ok (bs.get ⟨i, hbs⟩)) ∧
      (∀ e : ExtractErr,
        VideoScreenshot.get_multi_image sEnv vsFix "video.mp4" ["1.0", "2.0"] = .error e →
        ∃ t ∈ (["1.0", "2.0"] : List Timestamp),
          VideoScreenshot.get_image sEnv vsFix "video.mp4" t = .error e)) :=
  ⟨by decide, by decide,
    C8_batch_sequential sEnv vsFix "video.mp4" ["1.0", "2.0"] (by decide) (by decide)⟩

theorem loadCallSeq_cached (env : TranscriberEnv) :
    ∀ (n : Nat) (self : Transcriber) (m : WhisperModel),
      self.whisper_model = some m →
      Transcriber.loadCallSeq env self n = .ok (self, 0) := by
  intro n
  induction n with
  | zero => intro self m _; rfl
  | succ k ih =>
    intro self m hm
    unfold Transcriber.loadCallSeq
    unfold Transcriber.load_whisper_model
    rw [hm]
    simp [ih self m hm]

theorem loadCallSeq_fresh (env : TranscriberEnv) (ha : env.whisperAvailable = true) :
    ∀ (n : Nat) (self : Transcriber), 1 ≤ n → self.whisper_model = none →
      Transcriber.loadCallSeq env self n =
        .ok ({ self with whisper_model := some (env.loadModel self.model_size) }, 1) := by
  intro n self hn hw
  cases n with
  | zero => exact absurd hn (by decide)
  | succ k =>
    unfold Transcriber.loadCallSeq
    unfold Transcriber.load_whisper_model
    rw [hw]
    simp only [ha, if_true]
    rw [loadCallSeq_cached env k
      { self with whisper_model := some (env.loadModel self.model_size) }
      (env.loadModel self.model_size) rfl]

/-- C9: a freshly initialized `Transcriber` has no cached model; over any
positive number of transcription calls (each of which begins by invoking
`_load_whisper_model`) the speech-recognition model is loaded exactly once
and cached in the `_whisper_model` field, and any call on an instance whose
field is already populated returns the instance unchanged with zero loads. -/
theorem C9_lazy_model_load (env : TranscriberEnv) (p : Option String)
    (size : String) (n : Nat)
    (ha : env.whisperAvailable = true) (hn : 1 ≤ n) :
    (Transcriber.init p size).whisper_model = none ∧
    Transcriber.loadCallSeq env (Transcriber.init p size) n =
      .ok ({ Transcriber.init p size with whisper_model := some (env.loadModel size) }, 1) ∧
    (∀ (self : Transcriber) (m : WhisperModel), self.whisper_model = some m →
      Transcriber.load_whisper_model env self = .ok (self, 0)) := by
  refine ⟨rfl, ?_, ?_⟩
  · exact loadCallSeq_fresh env ha n (Transcriber.init p size) hn rfl
  · intro self m hm
    unfold Transcriber.load_whisper_model
    rw [hm]

/-- C9 witness: two transcription calls on a fresh default instance in the
fixture environment load the model once. -/
theorem C9_lazy_model_load_witness :
    tEnv.whisperAvailable = true ∧
    (1 : Nat) ≤ 2 ∧
    ((Transcriber.init none "large-v3-turbo").whisper_model = none ∧
      Transcriber.loadCallSeq tEnv (Transcriber.init none "large-v3-turbo") 2 =
        .ok ({ Transcriber.init none "large-v3-turbo" with
                whisper_model := some (tEnv.loadModel "large-v3-turbo") }, 1) ∧
      (∀ (self : Transcriber) (m : WhisperModel), self.whisper_model = some m →
        Transcriber.load_whisper_model tEnv self = .ok (self, 0))) :=
  ⟨rfl, by decide, C9_lazy_model_load tEnv none "large-v3-turbo" 2 rfl (by decide)⟩

/-- C2: on every run the enhancement stage executes and `summary.md` is
written with its output; the whole run is independent of whether `summary.md`
already existed (no checkpoint check guards stage 7), and the written content
is exactly the `enhance_summarize` result on the raw summary, transcript and
image mapping of the run. -/
theorem C2_always_enhance (o : Oracles) (fs : FS) (s1 s2 : Option String) :
    runPipeline o { fs with summary := s1 } = runPipeline o { fs with summary := s2 } ∧
    (runPipeline o fs).fs.summary = some ((runPipeline o fs).finalSummary) ∧
    (runPipeline o fs).finalSummary =
      VideoSummitNote.enhance_summarize o (runPipeline o fs).rawUsed
        (runPipeline o fs).transcriptUsed (runPipeline o fs).imagesPassed := by
  obtain ⟨vq, tq, sq, scq, smq⟩ := fs
  cases vq <;> cases tq <;> cases sq <;> cases scq <;> exact ⟨rfl, rfl, rfl⟩

/-- C3: against a workspace with all checkpoints present (`video.mp4`,
`transcription.txt`, `summary-raw.md` and the `screenshots/` directory),
stages 2 to 4 and the 5+6 unit all skip, the checkpointed contents are the
values used downstream, the checkpoint files are left untouched, and only
`summary.md` is (re)written; a second run over the resulting workspace
behaves identically, leaving the same four artifacts byte-identical again. -/
theorem C3_idempotent_skip (o : Oracles) (v : Bytes) (t s : String)
    (files : List (String × Bytes)) (smq : Option String) :
    let r1 := runPipeline o ⟨some v, some t, some s, some files, smq⟩
    let r2 := runPipeline o r1.fs
    r1.downloaded = false ∧ r1.transcribed = false ∧ r1.summarizedRaw = false ∧
    r1.selectCalled = false ∧ r1.extractions = 0 ∧
    r1.videoUsed = v ∧ r1.transcriptUsed = t ∧ r1.rawUsed = s ∧
    r1.imagesPassed = loadImages files ∧
    r1.fs.video = some v ∧ r1.fs.transcription = some t ∧
    r1.fs.summaryRaw = some s ∧ r1.fs.screenshots = some files ∧
    r1.fs.summary = some r1.finalSummary ∧
    r2.downloaded = false ∧ r2.transcribed = false ∧ r2.summarizedRaw = false ∧
    r2.selectCalled = false ∧ r2.extractions = 0 ∧
    r2.fs.video = some v ∧ r2.fs.transcription = some t ∧
    r2.fs.summaryRaw = some s ∧ r2.fs.screenshots = some files ∧
    r2.fs.summary = some r2.finalSummary :=
  ⟨rfl, rfl, rfl, rfl, rfl, rfl, rfl, rfl, rfl, rfl, rfl, rfl, rfl, rfl,
    rfl, rfl, rfl, rfl, rfl, rfl, rfl, rfl, rfl, rfl⟩

theorem pyStem_append_suffix (name : String) (h : pySuffix name = ".jpg") :
    name = pyStem name ++ ".jpg" := by
  cases hd : rfindDot name.data with
  | none =>
    simp only [pySuffix, hd] at h
    exact absurd h (by decide)
  | some i =>
    simp only [pySuffix, hd] at h
    simp only [pyStem, hd]
    by_cases hc : 0 < i ∧ i + 1 < name.data.length
    · rw [if_pos hc] at h
      rw [if_pos hc]
      have hdata : name.data.drop i = ".jpg".data := congrArg String.data h
      show name = String.mk (name.data.take i) ++ ".jpg"
      have happ : String.mk (name.data.take i) ++ ".jpg"
          = String.mk (name.data.take i ++ ".jpg".data) := rfl
      rw [happ, ← hdata, List.take_append_drop]
    · rw [if_neg hc] at h
      exact absurd h (by decide)

theorem dictInsert_fresh {K V : Type} [DecidableEq K] (d : List (K × V)) (k : K) (v : V)
    (h : ∀ q ∈ d, q.1 ≠ k) : dictInsert d k v = d ++ [(k, v)] := by
  unfold dictInsert
  rw [if_neg]
  rintro ⟨p, hp, he⟩
  exact h p hp he

theorem loadImages_fold :
    ∀ (files : List (String × Bytes)) (acc : List (PyKey × Bytes)),
      (∀ f ∈ files, pyLower (pySuffix f.1) = ".jpg" → pySuffix f.1 = ".jpg") →
      ((files.filter (fun f => pySuffix f.1 == ".jpg")).map (fun f => pyStem f.1)).Nodup →
      (∀ f ∈ files, pySuffix f.1 = ".jpg" → ∀ q ∈ acc, q.1 ≠ PyKey.ofStem (pyStem f.1)) →
      files.foldl loadStep acc
        = acc ++ (files.filter (fun f => pySuffix f.1 == ".jpg")).map
            (fun f => (PyKey.ofStem (pyStem f.1), f.2)) := by
  intro files
  induction files with
  | nil => intro acc _ _ _; simp
  | cons f rest ih =>
    intro acc hcase hnodup hfresh
    by_cases hj : pySuffix f.1 = ".jpg"
    · have hcond : pyLower (pySuffix f.1) = ".jpg" := by rw [hj]; decide
      have hfilter : (f :: rest).filter (fun g => pySuffix g.1 == ".jpg")
          = f :: rest.filter (fun g => pySuffix g.1 == ".jpg") := by
        simp [List.filter_cons, hj]
      rw [List.foldl_cons,
        show loadStep acc f = dictInsert acc (PyKey.ofStem (pyStem f.1)) f.2 from by
          unfold loadStep; rw [if_pos hcond],
        dictInsert_fresh acc _ f.2 (fun q hq => hfresh f (List.mem_cons_self f rest) hj q hq)]
      rw [hfilter] at hnodup
      simp only [List.map_cons, List.nodup_cons] at hnodup
      rw [ih (acc ++ [(PyKey.ofStem (pyStem f.1), f.2)])
        (fun g hg hgt => hcase g (List.mem_cons_of_mem f hg) hgt)
        hnodup.2 ?freshRest]
      · rw [hfilter]
        simp
      case freshRest =>
        intro g hg hgj q hq
        rcases List.mem_append.mp hq with hq1 | hq2
        · exact hfresh g (List.mem_cons_of_mem f hg) hgj q hq1
        · have hrq : q = (PyKey.ofStem (pyStem f.1), f.2) := by simpa using hq2
          rw [hrq]
          intro hcontra
          have hstem : pyStem f.1 = pyStem g.1 := by
            simpa using hcontra
          apply hnodup.1
          rw [hstem]
          have hgm : g ∈ rest.filter (fun p => pySuffix p.1 == ".jpg") := by
            rw [List.mem_filter]
            refine ⟨hg, ?_⟩
            simp [hgj]
          exact List.mem_map_of_mem (fun p => pyStem p.1) hgm
    · have hcond : ¬(pyLower (pySuffix f.1) = ".jpg") := by
        intro hlow
        exact hj (hcase f (List.mem_cons_self f rest) hlow)
      have hfilter : (f :: rest).filter (fun g => pySuffix g.1 == ".jpg")
          = rest.filter (fun g => pySuffix g.1 == ".jpg") := by
        simp [List.filter_cons, hj]
      rw [List.foldl_cons,
        show loadStep acc f = acc from by unfold loadStep; rw [if_neg hcond],
        hfilter]
      rw [hfilter] at hnodup
      exact ih acc (fun g hg hgt => hcase g (List.mem_cons_of_mem f hg) hgt) hnodup
        (fun g hg hgj q hq => hfresh g (List.mem_cons_of_mem f hg) hgj q hq)

theorem loadImages_eq (files : List (String × Bytes))
    (hnodup : (files.map Prod.fst).Nodup)
    (hcase : ∀ f ∈ files, pyLower (pySuffix f.1) = ".jpg" → pySuffix f.1 = ".jpg") :
    loadImages files
      = (files.filter (fun f => pySuffix f.1 == ".jpg")).map
          (fun f => (PyKey.ofStem (pyStem f.1), f.2)) := by
  have hfn : files.Nodup := hnodup.of_map
  have hfl : (files.filter (fun f => pySuffix f.1 == ".jpg")).Nodup := hfn.filter _
  have hstem : ((files.filter (fun f => pySuffix f.1 == ".jpg")).map
      (fun f => pyStem f.1)).Nodup := by
    apply hfl.map_on
    intro x hx y hy hxy
    have hxs : pySuffix x.1 = ".jpg" := by simpa using List.of_mem_filter hx
    have hys : pySuffix y.1 = ".jpg" := by simpa using List.of_mem_filter hy
    have hx1 : x.1 = y.1 := by
      rw [pyStem_append_suffix x.1 hxs, pyStem_append_suffix y.1 hys, hxy]
    exact List.inj_on_of_nodup_map hnodup (List.mem_of_mem_filter hx)
      (List.mem_of_mem_filter hy) hx1
  unfold loadImages
  rw [loadImages_fold files [] hcase hstem
    (fun f _ _ q hq => absurd hq (List.not_mem_nil q))]
  simp

theorem runPipeline_screenshots_exist (o : Oracles) (fs : FS)
    (files : List (String × Bytes)) (hscr : fs.screenshots = some files) :
    (runPipeline o fs).selectCalled = false ∧
    (runPipeline o fs).extractions = 0 ∧
    (runPipeline o fs).imagesPassed = loadImages files ∧
    (runPipeline o fs).fs.screenshots = some files := by
  obtain ⟨vq, tq, sq, scq, smq⟩ := fs
  have h2 : scq = some files := hscr
  subst h2
  cases vq <;> cases tq <;> cases sq <;> exact ⟨rfl, rfl, rfl, rfl⟩

/-- C1 (amended): when the `screenshots/` directory already exists, highlight
selection is never invoked and no extraction is performed, and the
enhancement stage receives exactly the images of the directory files whose
suffix is `.jpg`, in a mapping keyed by each file name stem kept as a string
(no float interpretation takes place).  The hypotheses say the directory
entries have distinct names and contain no upper-case spellings of the
`.jpg` suffix, so that its `.jpg`-suffixed files are exactly what the
lowercasing filter of the code keeps. -/
theorem C1_screenshot_short_circuit (o : Oracles) (fs : FS)
    (files : List (String × Bytes))
    (hscr : fs.screenshots = some files)
    (hnodup : (files.map Prod.fst).Nodup)
    (hcase : ∀ f ∈ files, pyLower (pySuffix f.1) = ".jpg" → pySuffix f.1 = ".jpg") :
    (runPipeline o fs).selectCalled = false ∧
    (runPipeline o fs).extractions = 0 ∧
    (runPipeline o fs).imagesPassed
      = (files.filter (fun f => pySuffix f.1 == ".jpg")).map
          (fun f => (PyKey.ofStem (pyStem f.1), f.2)) ∧
    (runPipeline o fs).imagesPassed.length
      = (files.filter (fun f => pySuffix f.1 == ".jpg")).length := by
  obtain ⟨hsel, hext, himg, _⟩ := runPipeline_screenshots_exist o fs files hscr
  refine ⟨hsel, hext, ?_, ?_⟩
  · rw [himg, loadImages_eq files hnodup hcase]
  · rw [himg, loadImages_eq files hnodup hcase, List.length_map]

/-- C1 witness: a directory holding `1.5.jpg`, `2.0.jpg` and `notes.txt`;
selection is skipped and exactly the two jpg files are passed, string-keyed
by stem. -/
theorem C1_screenshot_short_circuit_witness :
    fsW.screenshots = some filesW ∧
    (filesW.map Prod.fst).Nodup ∧
    (∀ f ∈ filesW, pyLower (pySuffix f.1) = ".jpg" → pySuffix f.1 = ".jpg") ∧
    ((runPipeline oTest fsW).selectCalled = false ∧
      (runPipeline oTest fsW).extractions = 0 ∧
      (runPipeline oTest fsW).imagesPassed
        = (filesW.filter (fun f => pySuffix f.1 == ".jpg")).map
            (fun f => (PyKey.ofStem (pyStem f.1), f.2)) ∧
      (runPipeline oTest fsW).imagesPassed.length
        = (filesW.filter (fun f => pySuffix f.1 == ".jpg")).length) :=
  ⟨rfl, by decide, by decide,
    C1_screenshot_short_circuit oTest fsW filesW rfl (by decide) (by decide)⟩

/-- C1 counterexample: with the pre-existing screenshot file `01.5.jpg`, the
image mapping handed to the enhancement stage is keyed by the stem string
`01.5` and its key is not a float key (`isinstance(key, float)` is false), so
the mapping is not keyed by the stem interpreted as a float timestamp; the
prompt text consequently tags the image with `01.5`, not with the float
rendering `1.5`. -/
theorem C1_counterexample :
    (runPipeline oTest fsC1).imagesPassed = [(PyKey.ofStem "01.5", "IMGA")] ∧
    (runPipeline oTest fsC1).imagesPassed.map (fun p => p.1.isFloatKey) = [false] ∧
    (runPipeline oTest fsC1).enhanceRequest.length = 3 ∧
    (runPipeline oTest fsC1).enhanceRequest[1]? =
      some [MsgPart.text "Timestamp: 01.5s, FilePath: `./screenshots/01.5.jpg`",
        MsgPart.imageUrl "IMGA"] := by
  refine ⟨?_, ?_, ?_, ?_⟩ <;> rfl

theorem enhance_messages_no_images (s : String) :
    countImageMessages (enhance_messages s []) = 0 ∧ (enhance_messages s []).length = 2 :=
  ⟨rfl, rfl⟩

theorem loadStep_skip_fold :
    ∀ (files : List (String × Bytes)) (acc : List (PyKey × Bytes)),
      (∀ f ∈ files, pyLower (pySuffix f.1) ≠ ".jpg") →
      files.foldl loadStep acc = acc := by
  intro files
  induction files with
  | nil => intro acc _; rfl
  | cons f rest ih =>
    intro acc h
    rw [List.foldl_cons,
      show loadStep acc f = acc from by
        unfold loadStep; rw [if_neg (h f (List.mem_cons_self f rest))]]
    exact ih acc (fun g hg => h g (List.mem_cons_of_mem f hg))

theorem loadImages_nil (files : List (String × Bytes))
    (h : ∀ f ∈ files, pyLower (pySuffix f.1) ≠ ".jpg") :
    loadImages files = [] :=
  loadStep_skip_fold files [] h

/-- C4: when the Highlight Set is empty, either because `select_times`
returns the empty list or because an existing `screenshots/` directory holds
no file the jpg filter keeps, the pipeline reaches stage 7 and writes
`summary.md` without error, with zero frame extractions, an empty image
mapping handed to `enhance_summarize`, and zero image messages (out of
exactly two messages) in the generation request. -/
theorem C4_empty_highlight_set (o : Oracles) (fs : FS)
    (h : (fs.screenshots = none ∧ ∀ a b : String, o.selectTimes a b = []) ∨
      (∃ files : List (String × Bytes), fs.screenshots = some files ∧
        ∀ f ∈ files, pyLower (pySuffix f.1) ≠ ".jpg")) :
    (runPipeline o fs).extractions = 0 ∧
    (runPipeline o fs).imagesPassed = [] ∧
    (runPipeline o fs).enhanceRequest = enhance_messages (runPipeline o fs).rawUsed [] ∧
    countImageMessages ((runPipeline o fs).enhanceRequest) = 0 ∧
    (runPipeline o fs).enhanceRequest.length = 2 ∧
    (runPipeline o fs).fs.summary = some ((runPipeline o fs).finalSummary) := by
  obtain ⟨vq, tq, sq, scq, smq⟩ := fs
  rcases h with ⟨hn, hsel⟩ | ⟨files, hsome, hnj⟩
  · have h2 : scq = none := hn
    subst h2
    cases vq <;> cases tq <;> cases sq <;>
      refine ⟨?_, ?_, ?_, ?_, ?_, ?_⟩ <;>
      simp [runPipeline, screenshotLoop, hsel, VideoSummitNote.enhance_summarize,
        countImageMessages, enhance_messages, isImageMsg, MsgPart.isImage]
  · have h2 : scq = some files := hsome
    subst h2
    have hload : loadImages files = [] := loadImages_nil files hnj
    cases vq <;> cases tq <;> cases sq <;>
      refine ⟨?_, ?_, ?_, ?_, ?_, ?_⟩ <;>
      simp [runPipeline, hload, VideoSummitNote.enhance_summarize,
        countImageMessages, enhance_messages, isImageMsg, MsgPart.isImage]

/-- C4 witness: an empty workspace whose highlight selector returns the empty
list. -/
theorem C4_empty_highlight_set_witness :
    fsEmpty.screenshots = none ∧
    (∀ a b : String, oEmpty.selectTimes a b = []) ∧
    ((runPipeline oEmpty fsEmpty).extractions = 0 ∧
      (runPipeline oEmpty fsEmpty).imagesPassed = [] ∧
      (runPipeline oEmpty fsEmpty).enhanceRequest
        = enhance_messages (runPipeline oEmpty fsEmpty).rawUsed [] ∧
      countImageMessages ((runPipeline oEmpty fsEmpty).enhanceRequest) = 0 ∧
      (runPipeline oEmpty fsEmpty).enhanceRequest.length = 2 ∧
      (runPipeline oEmpty fsEmpty).fs.summary
        = some ((runPipeline oEmpty fsEmpty).finalSummary)) :=
  ⟨rfl, fun a b => rfl,
    C4_empty_highlight_set oEmpty fsEmpty (Or.inl ⟨rfl, fun a b => rfl⟩)⟩

end YtVideoNote
